import Mathlib

/-
  Verification of the libwui table formatter and ANSI helpers.

  Shallow embedding of src/libwui/colors.py and src/libwui/cli.py.
  Python strings are Lean Strings, Python ints are Lean Int (with floor
  division Int.fdiv matching Python //), Python lists are Lean Lists,
  Python dicts keyed by int are association lists with first-match lookup
  and insert-by-shadowing, and CPython sets of small column indices are
  deduplicated lists kept in ascending order (matching CPython iteration
  order for small non-negative ints).  The generator format_table is a
  function returning Except: every exception it can raise escapes before
  the first yielded line, so an error value faithfully means that no
  output line was produced.
-/

namespace Libwui

/-! ## colors.py -/

/-- Embedding of colors._a: make an ANSI CSI SGR sequence. -/
def ansiA (num : String) : String := "\x1b[" ++ num ++ "m"

def BOLD : String := ansiA "1"
def BLACK : String := ansiA "30"
def RED : String := ansiA "31"
def GREEN : String := ansiA "32"
def YELLOW : String := ansiA "33"
def BLUE : String := ansiA "34"
def MAGENTA : String := ansiA "35"
def CYAN : String := ansiA "36"
def WHITE : String := ansiA "37"
def RESET : String := ansiA "0"
def NO_BOLD : String := ansiA "22"
def DEF_FG : String := ansiA "39"
def DEF_BG : String := ansiA "49"

/-- State of the left-to-right scanner implementing
    re.sub of the pattern ESC LBRACKET [0-9;]* m (colors.clean_esc).
    inSeq carries the digit/semicolon body seen so far, reversed. -/
inductive EscState where
  | normal
  | seenEsc
  | inSeq (body : List Char)
deriving DecidableEq, Repr

/-- Scanner for clean_esc.  A candidate match starts at an ESC character;
    if the candidate is aborted the buffered characters are emitted verbatim
    and scanning resumes at the aborting character (which may itself start a
    new candidate).  The buffer never contains a later ESC, so no match can
    start strictly inside an emitted buffer: this agrees with Python's
    re.sub left-to-right scan for this pattern. -/
def cleanEscGo : EscState → List Char → List Char
  | .normal, [] => []
  | .seenEsc, [] => ['\x1b']
  | .inSeq body, [] => '\x1b' :: '[' :: body.reverse
  | .normal, c :: cs =>
      if c = '\x1b' then cleanEscGo .seenEsc cs else c :: cleanEscGo .normal cs
  | .seenEsc, c :: cs =>
      if c = '[' then cleanEscGo (.inSeq []) cs
      else if c = '\x1b' then '\x1b' :: cleanEscGo .seenEsc cs
      else '\x1b' :: c :: cleanEscGo .normal cs
  | .inSeq body, c :: cs =>
      if c = 'm' then cleanEscGo .normal cs
      else if c.isDigit ∨ c = ';' then cleanEscGo (.inSeq (c :: body)) cs
      else if c = '\x1b' then ('\x1b' :: '[' :: body.reverse) ++ cleanEscGo .seenEsc cs
      else ('\x1b' :: '[' :: body.reverse) ++ (c :: cleanEscGo .normal cs)

/-- Embedding of colors.clean_esc: remove every ANSI CSI SGR escape. -/
def clean_esc (s : String) : String := String.mk (cleanEscGo .normal s.data)

/-- Embedding of colors.strlen on strings: visible length, escapes removed.
    (On the list arguments that the Python code also feeds to strlen the
    embedding uses List.length directly at each call site.) -/
def strlen (s : String) : Nat := (clean_esc s).length

/-- Decimal digits of a natural number, least significant first; the first
    argument is fuel, always called with fuel = n so it never runs out. -/
def natDigitsRevAux : Nat → Nat → List Char
  | 0, n => [Nat.digitChar (n % 10)]
  | fuel + 1, n =>
      if n < 10 then [Nat.digitChar n]
      else Nat.digitChar (n % 10) :: natDigitsRevAux fuel (n / 10)

/-- Python str on a non-negative int. -/
def pyNatStr (n : Nat) : String := String.mk (natDigitsRevAux n n).reverse

/-- Python str on an int (negative values get a leading minus sign). -/
def pyIntStr (i : Int) : String :=
  if i < 0 then "-" ++ pyNatStr i.natAbs else pyNatStr i.toNat

/-- Embedding of colors.rgb_fg. -/
def rgb_fg (r g b : Int) : String :=
  ansiA ("38;2;" ++ pyIntStr r ++ ";" ++ pyIntStr g ++ ";" ++ pyIntStr b)

/-- Embedding of colors.rgb_bg. -/
def rgb_bg (r g b : Int) : String :=
  ansiA ("48;2;" ++ pyIntStr r ++ ";" ++ pyIntStr g ++ ";" ++ pyIntStr b)

/-! ## cli.py: data model and Python-semantics helpers -/

/-- A table row: a literal pre-rendered string, or a list of cell strings
    (cli.py distinguishes them with isinstance(row, str)). -/
inductive Row where
  | lit (s : String)
  | cells (cs : List String)
deriving DecidableEq, Repr

/-- The exceptions the format_table generator body can raise.  All of them
    escape before the first yielded line. -/
inductive Err where
  | tooNarrowColumn
  | valueError
  | indexError
  | zeroDivisionError
deriving DecidableEq, Repr

/-- Python dict lookup (first-match, because insertion shadows). -/
def dictGet {α : Type} (d : List (Int × α)) (k : Int) : Option α :=
  (d.find? (fun p => p.1 == k)).map (fun p => p.2)

/-- Python dict assignment d[k] = v, modelled by shadowing. -/
def dictInsert {α : Type} (d : List (Int × α)) (k : Int) (v : α) : List (Int × α) :=
  (k, v) :: d

/-- Python list indexing: non-negative indices from the front, negative
    indices from the back, none when out of range. -/
def pyIndex (len : Nat) (i : Int) : Option Nat :=
  if 0 ≤ i then
    if i < (len : Int) then some i.toNat else none
  else
    if 0 ≤ (len : Int) + i then some ((len : Int) + i).toNat else none

/-- Python l[i] on an int list (IndexError when out of range). -/
def pyGetI (l : List Int) (i : Int) : Except Err Int :=
  match pyIndex l.length i with
  | some n => Except.ok (l.getD n 0)
  | none => Except.error Err.indexError

/-- Python l[i] = v on an int list (IndexError when out of range). -/
def pySetI (l : List Int) (i : Int) (v : Int) : Except Err (List Int) :=
  match pyIndex l.length i with
  | some n => Except.ok (l.set n v)
  | none => Except.error Err.indexError

/-- Python ' ' * n (empty for non-positive n). -/
def spaces (n : Int) : String := String.mk (List.replicate n.toNat ' ')

/-- Python s * n on strings (empty for non-positive n). -/
def pyStrMul (s : String) (n : Int) : String :=
  String.mk (List.flatten (List.replicate n.toNat s.data))

/-- Python s[:n] (whole string when n exceeds the length, empty for n ≤ 0). -/
def pySliceTo (s : String) (n : Int) : String := String.mk (s.data.take n.toNat)

/-- Python math.ceil(a / b) for ints, exact (b ≠ 0). -/
def pyCeilDiv (a b : Int) : Int := -(Int.fdiv (-a) b)

/-- The characters Python str.rstrip() removes. -/
def pyIsSpaceChar (c : Char) : Bool :=
  c = ' ' ∨ c = '\t' ∨ c = '\n' ∨ c = '\x0b' ∨ c = '\x0c' ∨ c = '\r'

/-- Python str.rstrip(). -/
def rstrip (s : String) : String :=
  String.mk (s.data.reverse.dropWhile pyIsSpaceChar).reverse

/-- Python str.join. -/
def joinSep (sep : String) : List String → String
  | [] => ""
  | x :: xs => xs.foldl (fun acc y => acc ++ sep ++ y) x

/-- Python max over a list (none on the empty list, where Python raises). -/
def natListMax : List Nat → Option Nat
  | [] => none
  | n :: ns => some (ns.foldl max n)

/-- itertools.zip_longest over a list of cell-line lists: one output subrow
    per index up to the longest list, missing entries are none (Python None).
    With no columns, or only empty columns, there are no subrows. -/
def zipLongest (ls : List (List String)) : List (List (Option String)) :=
  (List.range (ls.foldr (fun l acc => max l.length acc) 0)).map
    (fun i => ls.map (fun l => l.get? i))

/-- Python truthiness of the titles argument (None or an empty list of
    titles is falsy). -/
def titlesTruthy : Option (List String) → Bool
  | none => false
  | some [] => false
  | some (_ :: _) => true

/-! ## cli.py: format_table pipeline -/

/-- The keyword arguments of format_table, with their Python defaults. -/
structure TableArgs where
  column_spacing : Int
  wrap_columns : List Int
  titles : Option (List String)
  title_sep_color : String
  title_sep_char : String
  surround_rows : List (Int × (String × String))
  striped_row_bg : Option String
  end_spacing : Int
  require_min_widths : List (Int × Int)
  column_formats : List (Int × (String × String))
deriving Repr

/-- The Python default values of format_table's keyword arguments. -/
def defaultArgs : TableArgs :=
  ⟨2, [], none, CYAN, "-", [], none, 2, [], []⟩

/-- cli.py lines 46-51: prepend the title row (when truthy) to the items. -/
def assembleRows (titles : Option (List String)) (items : List Row) : List Row :=
  (if titlesTruthy titles then [Row.cells (titles.getD [])] else []) ++ items

/-- The cell lists of the non-literal rows, in order. -/
def cellsOf : Row → Option (List String)
  | Row.lit _ => none
  | Row.cells cs => some cs

/-- cli.py lines 53-54: max(strlen(row) for row in rows if not str);
    Python raises ValueError when no non-literal row exists. -/
def maxRowLengthE (rows : List Row) : Except Err Nat :=
  match natListMax ((rows.filterMap cellsOf).map List.length) with
  | none => Except.error Err.valueError
  | some m => Except.ok m

/-- cli.py lines 55-57: right-pad every cells row with empty cells. -/
def padRows (m : Nat) (rows : List Row) : List Row :=
  rows.map (fun r => match r with
    | Row.lit s => Row.lit s
    | Row.cells cs => Row.cells (cs ++ List.replicate (m - cs.length) ""))

/-- One entry of max_widths (cli.py lines 58-60).  The fold with base 0
    equals Python's max here because it is only reached when at least one
    non-literal row exists and all visible lengths are non-negative. -/
def colWidth (rows : List Row) (col : Nat) : Int :=
  ((rows.filterMap cellsOf).map (fun cs => ((strlen (cs.getD col "")) : Int))).foldr max 0

/-- cli.py lines 58-60: per-column maximum visible cell width. -/
def maxWidths (m : Nat) (rows : List Row) : List Int :=
  (List.range m).map (colWidth rows)

/-- cli.py lines 61-62: resolve negative wrap indices against the column
    count and deduplicate.  The result is kept sorted ascending, matching
    CPython's iteration order over a set of small non-negative ints. -/
def normWrap (m : Nat) (wrapCols : List Int) : List Int :=
  ((wrapCols.map (fun w => if 0 ≤ w then w else (m : Int) + w)).dedup).insertionSort (· ≤ ·)

/-- cli.py line 63: (len(max_widths) - 1) * column_spacing + end_spacing. -/
def totalSpacing (m : Nat) (colSp endSp : Int) : Int :=
  ((m : Int) - 1) * colSp + endSp

/-- cli.py lines 65-66: total width of the columns not in the wrap set. -/
def unwrappableSpace (W : List Int) (wset : List Int) : Int :=
  ((W.enum.filter (fun p => decide (¬ ((p.1 : Int) ∈ wset)))).map (fun p => p.2)).sum

/-- cli.py lines 67-68: the evenly divided share (Python floor division). -/
def initialShare (term colSp endSp : Int) (m : Nat) (W wset : List Int) : Int :=
  Int.fdiv (term - totalSpacing m colSp endSp - unwrappableSpace W wset) (wset.length : Int)

/-- cli.py lines 70-74: one pass over a snapshot of the wrap set, removing
    columns narrower than the current share and bumping the share by the
    floor-divided slack. -/
def adjustLoopE (W : List Int) : List Int → List Int → Int → Except Err (List Int × Int)
  | [], s, ws => Except.ok (s, ws)
  | n :: rest, s, ws =>
      match pyGetI W n with
      | Except.error e => Except.error e
      | Except.ok w =>
          if w < ws then
            let s' := s.erase n
            adjustLoopE W rest s' (ws + Int.fdiv (ws - w) ((max 1 s'.length : Nat) : Int))
          else
            adjustLoopE W rest s ws

/-- cli.py lines 75-76: clamp every remaining wrap column to the share. -/
def clampE (v : Int) : List Int → List Int → Except Err (List Int)
  | [], W => Except.ok W
  | n :: rest, W =>
      match pySetI W n v with
      | Except.error e => Except.error e
      | Except.ok W' => clampE v rest W'

/-- cli.py lines 53-78: row padding, column widths and the wrap-set width
    redistribution.  Returns (column count, final widths, final wrap set,
    wrappable_space; the last is -1 when no wrapping was triggered). -/
def computeLayout (term colSp endSp : Int) (wrapCols : List Int) (rows : List Row) :
    Except Err (Nat × List Int × List Int × Int) :=
  match maxRowLengthE rows with
  | Except.error e => Except.error e
  | Except.ok m =>
      let W := maxWidths m (padRows m rows)
      let ws0 := normWrap m wrapCols
      if W.sum + totalSpacing m colSp endSp > term ∧ ws0 ≠ [] then
        match adjustLoopE W ws0 ws0 (initialShare term colSp endSp m W ws0) with
        | Except.error e => Except.error e
        | Except.ok (fs, fshr) =>
            match clampE fshr fs W with
            | Except.error e => Except.error e
            | Except.ok W' => Except.ok (m, W', fs, fshr)
      else Except.ok (m, W, ws0, -1)

/-- cli.py lines 79-81: the require_min_widths check. -/
def checkMinWidthsE (W : List Int) : List (Int × Int) → Except Err Unit
  | [] => Except.ok ()
  | (pos, minW) :: rest =>
      match pyGetI W pos with
      | Except.error e => Except.error e
      | Except.ok w =>
          if w < minW then Except.error Err.tooNarrowColumn
          else checkMinWidthsE W rest

/-- cli.py lines 90-95: the inner format_column closure. -/
def format_column (cf : List (Int × (String × String))) (row : Int) (column : Nat)
    (text : String) : String :=
  if 0 ≤ row ∧ cf ≠ [] then
    match dictGet cf (column : Int) with
    | some ps => ps.1 ++ text ++ ps.2
    | none => text
  else text

/-- cli.py lines 97-114: render one logical row into physical lines. -/
def renderRow (cf : List (Int × (String × String)))
    (surround : List (Int × (String × String))) (striped : Option String)
    (colSp : Int) (W : List Int) (wset : List Int) (wspace : Int)
    (wrapFn : String → Int → List String) (rowNum : Int) (row : Row) : List String :=
  let ps0 := (dictGet surround rowNum).getD ("", "")
  let ps :=
    match striped with
    | some bg =>
        if rowNum > 0 ∧ rowNum % 2 = 1 then (ps0.1 ++ bg, ps0.2 ++ "\x1b[K" ++ RESET)
        else ps0
    | none => ps0
  match row with
  | Row.lit s => [ps.1 ++ s ++ ps.2]
  | Row.cells cs =>
      let cellLists := cs.enum.map (fun p =>
        if wspace > 0 ∧ (p.1 : Int) ∈ wset then wrapFn p.2 wspace else [p.2])
      (zipLongest cellLists).map (fun subrow =>
        let subcells := subrow.enum.map (fun p =>
          let c := p.2.getD ""
          format_column cf rowNum p.1 c ++ spaces (W.getD p.1 0 - (strlen c : Int)))
        ps.1 ++ rstrip (joinSep (spaces colSp) subcells) ++ ps.2)

/-- cli.py lines 83-87: the title separator line, width lw, built by
    rounding up the repeat count then truncating. -/
def sepLine (sepChar : String) (lw : Int) : String :=
  pySliceTo (pyStrMul sepChar (pyCeilDiv lw (sepChar.length : Int))) lw

/-- cli.py lines 86-88: the surround_rows dict after the two unconditional
    writes of the titles branch. -/
def titledSurround (a : TableArgs) : List (Int × (String × String)) :=
  dictInsert (dictInsert a.surround_rows (-2) (BOLD, RESET)) (-1) (a.title_sep_color, RESET)

/-- cli.py lines 97-114: all physical lines of the final row list,
    enumerated from start (-2 with titles, 0 without). -/
def renderedLines (a : TableArgs) (surround : List (Int × (String × String)))
    (W wset : List Int) (wspace : Int) (wrapFn : String → Int → List String)
    (start : Int) (rows2 : List Row) : List String :=
  (rows2.enum.map (fun p =>
    renderRow a.column_formats surround a.striped_row_bg a.column_spacing
      W wset wspace wrapFn (start + (p.1 : Int)) p.2)).flatten

/-- Embedding of cli.format_table.  wrapFn stands for the external
    textwrap.wrap collaborator (only ever called with a positive width),
    term for the terminal column count snapshot.  The result carries the
    produced lines together with the caller-visible state of the
    surround_rows dict after the call: Python reuses the caller's dict when
    it is truthy (and mutates it in the titles branch), and a fresh
    invisible dict otherwise. -/
def format_table (wrapFn : String → Int → List String) (term : Int)
    (items : List Row) (a : TableArgs) :
    Except Err (List String × List (Int × (String × String))) :=
  let rows0 := assembleRows a.titles items
  if rows0 = [] then Except.ok ([], a.surround_rows)
  else
    match computeLayout term a.column_spacing a.end_spacing a.wrap_columns rows0 with
    | Except.error e => Except.error e
    | Except.ok (m, W, wset, wspace) =>
        match checkMinWidthsE W a.require_min_widths with
        | Except.error e => Except.error e
        | Except.ok _ =>
            let rows1 := padRows m rows0
            let withTitles : Except Err (List Row × List (Int × (String × String))) :=
              if titlesTruthy a.titles then
                if a.title_sep_char.length = 0 then Except.error Err.zeroDivisionError
                else
                  Except.ok (rows1.insertIdx 1 (Row.lit (sepLine a.title_sep_char
                      (W.sum + totalSpacing m a.column_spacing a.end_spacing))),
                    titledSurround a)
              else Except.ok (rows1, a.surround_rows)
            match withTitles with
            | Except.error e => Except.error e
            | Except.ok (rows2, surround) =>
                Except.ok (renderedLines a surround W wset wspace wrapFn
                    (if titlesTruthy a.titles then -2 else 0) rows2,
                  if a.surround_rows = [] then a.surround_rows else surround)

/-- Placeholder for the external wrap collaborator in concrete runs where
    wrapping is never triggered (the function is then never applied). -/
def wrapId : String → Int → List String := fun s _ => [s]

/-! ## Helper lemmas -/

lemma dataAppend (s t : String) : (s ++ t).data = s.data ++ t.data := by
  cases s; cases t; rfl

lemma digitChar_isDigit (k : Nat) (hk : k < 10) : (Nat.digitChar k).isDigit = true := by
  interval_cases k <;> rfl

lemma natDigitsRevAux_digits :
    ∀ fuel n c, c ∈ natDigitsRevAux fuel n → c.isDigit = true := by
  intro fuel
  induction fuel with
  | zero =>
      intro n c hc
      simp only [natDigitsRevAux, List.mem_singleton] at hc
      subst hc
      exact digitChar_isDigit _ (Nat.mod_lt _ (by norm_num))
  | succ f ih =>
      intro n c hc
      by_cases h : n < 10
      · simp only [natDigitsRevAux, if_pos h, List.mem_singleton] at hc
        subst hc
        exact digitChar_isDigit _ h
      · simp only [natDigitsRevAux, if_neg h, List.mem_cons] at hc
        rcases hc with hc | hc
        · subst hc
          exact digitChar_isDigit _ (Nat.mod_lt _ (by norm_num))
        · exact ih _ _ hc

lemma pyNatStr_digits (n : Nat) (c : Char) (hc : c ∈ (pyNatStr n).data) :
    c.isDigit = true := by
  have hc' : c ∈ (natDigitsRevAux n n).reverse := hc
  exact natDigitsRevAux_digits n n c (List.mem_reverse.mp hc')

lemma cleanEscGo_inSeq_body :
    ∀ body acc rest, (∀ c ∈ body, c.isDigit = true ∨ c = ';') →
      cleanEscGo (EscState.inSeq acc) (body ++ 'm' :: rest) = cleanEscGo EscState.normal rest := by
  intro body
  induction body with
  | nil =>
      intro acc rest _
      simp [cleanEscGo]
  | cons c cs ih =>
      intro acc rest h
      have hc := h c (List.mem_cons_self c cs)
      have hcm : ¬ (c = 'm') := by
        rcases hc with h1 | h1
        · intro he; subst he; exact absurd h1 (by decide)
        · subst h1; decide
      have hcd : (c.isDigit = true ∨ c = ';') := hc
      have step : cleanEscGo (EscState.inSeq acc) (c :: (cs ++ 'm' :: rest)) =
          cleanEscGo (EscState.inSeq (c :: acc)) (cs ++ 'm' :: rest) := by
        simp only [cleanEscGo]
        rw [if_neg hcm, if_pos hcd]
      rw [List.cons_append, step]
      exact ih (c :: acc) rest (fun d hd => h d (List.mem_cons_of_mem c hd))

lemma cleanEscGo_full (body rest : List Char)
    (h : ∀ c ∈ body, c.isDigit = true ∨ c = ';') :
    cleanEscGo EscState.normal ('\x1b' :: '[' :: (body ++ 'm' :: rest)) =
      cleanEscGo EscState.normal rest := by
  have h1 : cleanEscGo EscState.normal ('\x1b' :: '[' :: (body ++ 'm' :: rest)) =
      cleanEscGo EscState.seenEsc ('[' :: (body ++ 'm' :: rest)) := by
    simp [cleanEscGo]
  have h2 : cleanEscGo EscState.seenEsc ('[' :: (body ++ 'm' :: rest)) =
      cleanEscGo (EscState.inSeq []) (body ++ 'm' :: rest) := by
    simp [cleanEscGo]
  rw [h1, h2, cleanEscGo_inSeq_body body [] rest h]

lemma filterMap_cellsOf_all_lit :
    ∀ items : List Row, (∀ r ∈ items, ∃ s, r = Row.lit s) →
      items.filterMap cellsOf = [] := by
  intro items h
  induction items with
  | nil => rfl
  | cons r rest ih =>
      obtain ⟨s, hs⟩ := h r (List.mem_cons_self r rest)
      subst hs
      simp only [List.filterMap_cons, cellsOf]
      exact ih (fun q hq => h q (List.mem_cons_of_mem _ hq))

lemma format_column_neg (cf : List (Int × (String × String))) (row : Int)
    (col : Nat) (text : String) (h : row < 0) :
    format_column cf row col text = text := by
  unfold format_column
  rw [if_neg]
  intro hand
  exact absurd hand.1 (by omega)

lemma format_column_pos (cf : List (Int × (String × String))) (row : Int)
    (col : Nat) (text : String) (ps : String × String) (h0 : 0 ≤ row)
    (hget : dictGet cf (col : Int) = some ps) :
    format_column cf row col text = ps.1 ++ text ++ ps.2 := by
  have hne : cf ≠ [] := by
    intro he
    subst he
    simp [dictGet] at hget
  unfold format_column
  rw [if_pos ⟨h0, hne⟩, hget]

lemma assembleRows_ne_of_titles (titles : Option (List String)) (items : List Row)
    (hT : titlesTruthy titles = true) : assembleRows titles items ≠ [] := by
  simp [assembleRows, hT]

lemma dictGet_cons_ne {α : Type} (k k' : Int) (v : α) (d : List (Int × α))
    (h : (k == k') = false) : dictGet ((k, v) :: d) k' = dictGet d k' := by
  simp [dictGet, List.find?_cons, h]

lemma dictGet_cons_eq {α : Type} (k : Int) (v : α) (d : List (Int × α)) :
    dictGet ((k, v) :: d) k = some v := by
  simp [dictGet, List.find?_cons]

lemma format_table_rows_nil (wrapFn : String → Int → List String) (term : Int)
    (items : List Row) (a : TableArgs)
    (hnil : assembleRows a.titles items = []) :
    format_table wrapFn term items a = Except.ok ([], a.surround_rows) := by
  unfold format_table
  rw [hnil]
  rfl

lemma format_table_error_cl (wrapFn : String → Int → List String) (term : Int)
    (items : List Row) (a : TableArgs) (e : Err)
    (hne : assembleRows a.titles items ≠ [])
    (hcl : computeLayout term a.column_spacing a.end_spacing a.wrap_columns
        (assembleRows a.titles items) = Except.error e) :
    format_table wrapFn term items a = Except.error e := by
  unfold format_table
  rw [if_neg hne, hcl]

lemma format_table_error_ck (wrapFn : String → Int → List String) (term : Int)
    (items : List Row) (a : TableArgs) (e : Err) (m : Nat) (W wset : List Int)
    (wspace : Int)
    (hne : assembleRows a.titles items ≠ [])
    (hcl : computeLayout term a.column_spacing a.end_spacing a.wrap_columns
        (assembleRows a.titles items) = Except.ok (m, W, wset, wspace))
    (hck : checkMinWidthsE W a.require_min_widths = Except.error e) :
    format_table wrapFn term items a = Except.error e := by
  unfold format_table
  rw [if_neg hne, hcl]
  dsimp only
  rw [hck]

lemma format_table_no_titles (wrapFn : String → Int → List String) (term : Int)
    (items : List Row) (a : TableArgs) (m : Nat) (W wset : List Int) (wspace : Int)
    (hT : titlesTruthy a.titles = false)
    (hne : assembleRows a.titles items ≠ [])
    (hcl : computeLayout term a.column_spacing a.end_spacing a.wrap_columns
        (assembleRows a.titles items) = Except.ok (m, W, wset, wspace))
    (hck : checkMinWidthsE W a.require_min_widths = Except.ok ()) :
    format_table wrapFn term items a =
      Except.ok (renderedLines a a.surround_rows W wset wspace wrapFn 0
          (padRows m (assembleRows a.titles items)),
        a.surround_rows) := by
  unfold format_table
  rw [if_neg hne, hcl]
  dsimp only
  rw [hck]
  dsimp only
  rw [hT]
  simp only [Bool.false_eq_true, if_false, ite_self]

lemma format_table_titles_zerodiv (wrapFn : String → Int → List String) (term : Int)
    (items : List Row) (a : TableArgs) (m : Nat) (W wset : List Int) (wspace : Int)
    (hT : titlesTruthy a.titles = true)
    (hsep : a.title_sep_char.length = 0)
    (hcl : computeLayout term a.column_spacing a.end_spacing a.wrap_columns
        (assembleRows a.titles items) = Except.ok (m, W, wset, wspace))
    (hck : checkMinWidthsE W a.require_min_widths = Except.ok ()) :
    format_table wrapFn term items a = Except.error Err.zeroDivisionError := by
  unfold format_table
  rw [if_neg (assembleRows_ne_of_titles a.titles items hT), hcl]
  dsimp only
  rw [hck]
  dsimp only
  rw [hT]
  simp only [if_true, hsep, if_pos]

lemma format_table_titles (wrapFn : String → Int → List String) (term : Int)
    (items : List Row) (a : TableArgs) (m : Nat) (W wset : List Int) (wspace : Int)
    (hT : titlesTruthy a.titles = true)
    (hsep : a.title_sep_char.length ≠ 0)
    (hcl : computeLayout term a.column_spacing a.end_spacing a.wrap_columns
        (assembleRows a.titles items) = Except.ok (m, W, wset, wspace))
    (hck : checkMinWidthsE W a.require_min_widths = Except.ok ()) :
    format_table wrapFn term items a =
      Except.ok (renderedLines a (titledSurround a) W wset wspace wrapFn (-2)
          ((padRows m (assembleRows a.titles items)).insertIdx 1
            (Row.lit (sepLine a.title_sep_char
              (W.sum + totalSpacing m a.column_spacing a.end_spacing)))),
        if a.surround_rows = [] then a.surround_rows else titledSurround a) := by
  unfold format_table
  rw [if_neg (assembleRows_ne_of_titles a.titles items hT), hcl]
  dsimp only
  rw [hck]
  dsimp only
  rw [hT]
  simp only [if_true, hsep, if_neg]
  rfl

/-! ## Claim C1 -/

/-- Claim C1, counterexample: on rows [["a","bb"],["ccc","d"]] with no titles,
    column_spacing 2, end_spacing 0 and a terminal of 80 columns, format_table
    emits "a    bb" and "ccc  d" (padding to the column width is applied
    BEFORE the 2 joining spaces), not the claimed "a   bb" and "ccc d". -/
theorem c1_counterexample :
    format_table wrapId 80 [Row.cells ["a", "bb"], Row.cells ["ccc", "d"]]
        ⟨2, [], none, CYAN, "-", [], none, 0, [], []⟩ =
      Except.ok (["a    bb", "ccc  d"], []) ∧
    (["a    bb", "ccc  d"] : List String) ≠ ["a   bb", "ccc d"] :=
  ⟨rfl, by decide⟩

/-- Claim C1 (amended): on rows [["a","bb"],["ccc","d"]] with no titles,
    column_spacing 2 and end_spacing 0 on an 80-column terminal, format_table
    computes column widths [3,2] and emits exactly the two lines "a    bb"
    and "ccc  d" (each cell left-aligned and right-padded to its column
    width, columns joined by 2 spaces, trailing whitespace trimmed). -/
theorem c1_amended :
    maxWidths 2 (padRows 2 [Row.cells ["a", "bb"], Row.cells ["ccc", "d"]]) = [3, 2] ∧
    format_table wrapId 80 [Row.cells ["a", "bb"], Row.cells ["ccc", "d"]]
        ⟨2, [], none, CYAN, "-", [], none, 0, [], []⟩ =
      Except.ok (["a    bb", "ccc  d"], []) :=
  ⟨rfl, rfl⟩

/-! ## Claim C6 -/

/-- Claim C6: for an empty row set (no items and no truthy titles),
    format_table produces an empty output sequence, raises no error, and
    leaves the surround_rows argument untouched. -/
theorem c6_empty_rows (wrapFn : String → Int → List String) (term : Int)
    (a : TableArgs) (hT : titlesTruthy a.titles = false) :
    format_table wrapFn term [] a = Except.ok ([], a.surround_rows) := by
  have hrows : assembleRows a.titles [] = [] := by
    simp [assembleRows, hT]
  unfold format_table
  rw [hrows]
  rfl

/-- Claim C6, witness: the empty call with all-default arguments. -/

theorem c6_witness :
    format_table wrapId 80 [] defaultArgs = Except.ok ([], defaultArgs.surround_rows) :=
  c6_empty_rows wrapId 80 defaultArgs rfl

/-! ## Claim C7 -/

/-- Claim C7, counterexample: for the negative int argument r = -1, Python
    str gives "-1" whose minus sign breaks the CSI pattern, so clean_esc
    removes nothing and the visible length of rgb_fg(-1,0,0) is 14, not 0. -/
theorem c7_counterexample : strlen (rgb_fg (-1) 0 0) ≠ 0 := by decide

/-- Claim C7 (amended): for all NON-NEGATIVE int arguments r, g, b, the
    escape-stripped visible length of rgb_fg(r,g,b) is 0. -/
theorem c7_amended (r g b : Int) (hr : 0 ≤ r) (hg : 0 ≤ g) (hb : 0 ≤ b) :
    strlen (rgb_fg r g b) = 0 := by
  have hlit : ∀ c, c ∈ ['3', '8', ';', '2', ';'] → (c.isDigit = true ∨ c = ';') := by
    decide
  have hsemi : ∀ c, c ∈ [';'] → (c.isDigit = true ∨ c = ';') := by decide
  have hint : ∀ i : Int, 0 ≤ i → ∀ c ∈ (pyIntStr i).data, (c.isDigit = true ∨ c = ';') := by
    intro i hi c hc
    rw [pyIntStr, if_neg (by omega)] at hc
    exact Or.inl (pyNatStr_digits i.toNat c hc)
  have hbody : ∀ c ∈ ("38;2;" ++ pyIntStr r ++ ";" ++ pyIntStr g ++ ";" ++ pyIntStr b).data,
      (c.isDigit = true ∨ c = ';') := by
    intro c hc
    rw [dataAppend, dataAppend, dataAppend, dataAppend, dataAppend] at hc
    simp only [List.mem_append] at hc
    rcases hc with (((((hc | hc) | hc) | hc) | hc) | hc)
    · exact hlit c hc
    · exact hint r hr c hc
    · exact hsemi c hc
    · exact hint g hg c hc
    · exact hsemi c hc
    · exact hint b hb c hc
  have hd : (rgb_fg r g b).data =
      '\x1b' :: '[' ::
        (("38;2;" ++ pyIntStr r ++ ";" ++ pyIntStr g ++ ";" ++ pyIntStr b).data ++ 'm' :: []) := by
    unfold rgb_fg ansiA
    rw [dataAppend, dataAppend]
    rfl
  unfold strlen clean_esc
  rw [hd, cleanEscGo_full _ _ hbody]
  rfl

/-- Claim C7, witness: concrete non-negative input (0, 128, 255). -/
theorem c7_witness : strlen (rgb_fg 0 128 255) = 0 :=
  c7_amended 0 128 255 (by decide) (by decide) (by decide)

/-! ## Claim C9 -/

/-- Claim C9: when the assembled row list is non-empty but contains only
    literal string rows (no truthy titles and no cell rows), format_table
    fails with ValueError (max over an empty collection) instead of
    emitting the literal rows. -/
theorem c9_all_literal (wrapFn : String → Int → List String) (term : Int)
    (items : List Row) (a : TableArgs)
    (hT : titlesTruthy a.titles = false) (hne : items ≠ [])
    (hlit : ∀ r ∈ items, ∃ s, r = Row.lit s) :
    format_table wrapFn term items a = Except.error Err.valueError := by
  have hrows : assembleRows a.titles items = items := by
    simp [assembleRows, hT]
  have hml : maxRowLengthE items = Except.error Err.valueError := by
    unfold maxRowLengthE
    rw [filterMap_cellsOf_all_lit items hlit]
    rfl
  have hcl : computeLayout term a.column_spacing a.end_spacing a.wrap_columns items =
      Except.error Err.valueError := by
    unfold computeLayout
    rw [hml]
  unfold format_table
  rw [hrows, if_neg hne, hcl]

/-- Claim C9, witness: one literal row with default arguments. -/
theorem c9_witness :
    format_table wrapId 80 [Row.lit "x"] defaultArgs = Except.error Err.valueError :=
  c9_all_literal wrapId 80 [Row.lit "x"] defaultArgs rfl (by decide)
    (by
      intro r hr
      rw [List.mem_singleton] at hr
      exact ⟨"x", hr⟩)

/-! ## Claim C10 -/

/-- Claim C10: per-column decorations from column_formats are applied only
    to cells of data rows (row index ≥ 0, where the configured pair wraps
    the cell); for any negative row index — in particular the title row,
    rendered at index -2 — format_column returns the text unchanged, and
    the whole rendering of such a row is identical to rendering it with no
    column_formats at all. -/
theorem c10_column_formats_data_rows_only :
    (∀ (cf : List (Int × (String × String))) (row : Int) (col : Nat) (text : String),
        row < 0 → format_column cf row col text = text) ∧
    (∀ (cf : List (Int × (String × String))) (row : Int) (col : Nat) (text : String)
        (ps : String × String), 0 ≤ row → dictGet cf (col : Int) = some ps →
        format_column cf row col text = ps.1 ++ text ++ ps.2) ∧
    (∀ (cf surround : List (Int × (String × String))) (striped : Option String)
        (colSp : Int) (W wset : List Int) (wspace : Int)
        (wrapFn : String → Int → List String) (rowNum : Int) (row : Row),
        rowNum < 0 →
        renderRow cf surround striped colSp W wset wspace wrapFn rowNum row =
          renderRow [] surround striped colSp W wset wspace wrapFn rowNum row) := by
  refine ⟨format_column_neg, format_column_pos, ?_⟩
  intro cf surround striped colSp W wset wspace wrapFn rowNum row hneg
  cases row with
  | lit s => rfl
  | cells cs =>
      unfold renderRow
      dsimp only
      congr 1
      funext subrow
      have hsub : List.map
          (fun p : Nat × Option String => format_column cf rowNum p.1 (p.2.getD "") ++
            spaces (W.getD p.1 0 - ((strlen (p.2.getD "")) : Int))) subrow.enum =
          List.map
          (fun p : Nat × Option String => format_column [] rowNum p.1 (p.2.getD "") ++
            spaces (W.getD p.1 0 - ((strlen (p.2.getD "")) : Int))) subrow.enum := by
        apply List.map_congr_left
        intro p _
        rw [format_column_neg cf rowNum p.1 _ hneg, format_column_neg [] rowNum p.1 _ hneg]
      rw [hsub]

/-- Claim C10, witness: a configured column format decorates a data-row cell
    but leaves a title-row cell (row index -2) untouched. -/
theorem c10_witness :
    format_column [((0 : Int), ("<", ">"))] (-2) 0 "T" = "T" ∧
    format_column [((0 : Int), ("<", ">"))] 0 0 "x" = "<" ++ "x" ++ ">" :=
  ⟨c10_column_formats_data_rows_only.1 [((0 : Int), ("<", ">"))] (-2) 0 "T" (by decide),
   c10_column_formats_data_rows_only.2.1 [((0 : Int), ("<", ">"))] 0 0 "x" ("<", ">")
     (by decide) rfl⟩

/-! ## Claim C8, counterexample -/

/-- Claim C8, counterexample: the accepted row set [[]] (one structured row
    with zero cells) produces zero physical lines — zip_longest over no
    columns yields no subrows — so the line count is smaller than the
    logical row count 1. -/
theorem c8_counterexample :
    format_table wrapId 80 [Row.cells []] defaultArgs = Except.ok ([], []) ∧
    ([] : List String).length < [Row.cells []].length :=
  ⟨rfl, by decide⟩

/-! ## Claims C4 and C5, counterexamples -/

/-- Claim C4, counterexample: the caller supplies a decoration for the title
    row slot (-2), yet format_table overwrites it: the title line is rendered
    with BOLD, not with the caller's prefix "P", and the dict maps -2 to
    (BOLD, RESET). -/
theorem c4_counterexample :
    format_table wrapId 80 [Row.cells ["x"]]
        ⟨2, [], some ["T"], CYAN, "-", [((-2 : Int), ("P", "S"))], none, 2, [], []⟩ =
      Except.ok ([BOLD ++ "T" ++ RESET, CYAN ++ "---" ++ RESET, "x"],
        [(-1, (CYAN, RESET)), (-2, (BOLD, RESET)), (-2, ("P", "S"))]) ∧
    dictGet [((-1 : Int), (CYAN, RESET)), (-2, (BOLD, RESET)), (-2, ("P", "S"))] (-2) =
      some (BOLD, RESET) ∧
    BOLD ++ "T" ++ RESET ≠ "P" ++ "T" ++ "S" :=
  ⟨rfl, rfl, by decide⟩

/-- Claim C5, counterexample: with titles and a non-empty caller-supplied
    surround_rows mapping, the call returns with the caller's mapping
    extended by the -2 and -1 slots: the caller-visible dict after the call
    differs from the one passed in. -/
theorem c5_counterexample :
    format_table wrapId 80 [Row.cells ["x"]]
        ⟨2, [], some ["T"], CYAN, "-", [((0 : Int), ("A", "B"))], none, 2, [], []⟩ =
      Except.ok ([BOLD ++ "T" ++ RESET, CYAN ++ "---" ++ RESET, "A" ++ "x" ++ "B"],
        [(-1, (CYAN, RESET)), (-2, (BOLD, RESET)), (0, ("A", "B"))]) ∧
    ([((-1 : Int), (CYAN, RESET)), (-2, (BOLD, RESET)), (0, ("A", "B"))] ≠
      [((0 : Int), ("A", "B"))]) :=
  ⟨rfl, by decide⟩

/-! ## Claim C4 (amended) -/

/-- Claim C4 (amended): when titles are supplied, format_table
    UNCONDITIONALLY overwrites the row decorations for the title slot (-2)
    with (BOLD, RESET) and for the separator slot (-1) with
    (title_sep_color, RESET); caller-supplied decorations for those two
    slots are replaced, not kept.  Stated on every successful call with a
    truthy title row and a non-empty caller mapping. -/
theorem c4_amended (wrapFn : String → Int → List String) (term : Int)
    (items : List Row) (a : TableArgs) (lines : List String)
    (d : List (Int × (String × String)))
    (hT : titlesTruthy a.titles = true)
    (hsur : a.surround_rows ≠ [])
    (hok : format_table wrapFn term items a = Except.ok (lines, d)) :
    dictGet d (-2) = some (BOLD, RESET) ∧
    dictGet d (-1) = some (a.title_sep_color, RESET) := by
  have hne := assembleRows_ne_of_titles a.titles items hT
  cases hcl : computeLayout term a.column_spacing a.end_spacing a.wrap_columns
      (assembleRows a.titles items) with
  | error e =>
      rw [format_table_error_cl wrapFn term items a e hne hcl] at hok
      simp at hok
  | ok q =>
      obtain ⟨m, W, wset, wspace⟩ := q
      cases hck : checkMinWidthsE W a.require_min_widths with
      | error e =>
          rw [format_table_error_ck wrapFn term items a e m W wset wspace hne hcl hck] at hok
          simp at hok
      | ok u =>
          cases u
          by_cases hsep : a.title_sep_char.length = 0
          · rw [format_table_titles_zerodiv wrapFn term items a m W wset wspace
                hT hsep hcl hck] at hok
            simp at hok
          · rw [format_table_titles wrapFn term items a m W wset wspace
                hT hsep hcl hck, if_neg hsur] at hok
            simp only [Except.ok.injEq, Prod.mk.injEq] at hok
            obtain ⟨-, hd⟩ := hok
            subst hd
            unfold titledSurround dictInsert
            constructor
            · rw [dictGet_cons_ne _ _ _ _ (by decide), dictGet_cons_eq]
            · rw [dictGet_cons_eq]

/-- Claim C4, witness: amended theorem applied to the concrete overwritten
    call of the counterexample configuration. -/
theorem c4_witness :
    dictGet [((-1 : Int), (CYAN, RESET)), (-2, (BOLD, RESET)), (-2, ("P", "S"))] (-2) =
      some (BOLD, RESET) ∧
    dictGet [((-1 : Int), (CYAN, RESET)), (-2, (BOLD, RESET)), (-2, ("P", "S"))] (-1) =
      some (CYAN, RESET) :=
  c4_amended wrapId 80 [Row.cells ["x"]]
    ⟨2, [], some ["T"], CYAN, "-", [((-2 : Int), ("P", "S"))], none, 2, [], []⟩
    [BOLD ++ "T" ++ RESET, CYAN ++ "---" ++ RESET, "x"]
    [(-1, (CYAN, RESET)), (-2, (BOLD, RESET)), (-2, ("P", "S"))]
    rfl (by decide) rfl

/-! ## Claim C5 (amended) -/

/-- Claim C5 (amended): format_table has no side effect on its arguments
    except for the surround_rows mapping, which is mutated (slots -2 and -1
    written) exactly when titles are supplied and the caller passed a
    non-empty mapping; when no titles are supplied, or the caller's mapping
    is empty or absent, the caller-visible mapping after the call is
    unchanged.  (Terminal size is still queried once per call.) -/
theorem c5_amended (wrapFn : String → Int → List String) (term : Int)
    (items : List Row) (a : TableArgs) (lines : List String)
    (d : List (Int × (String × String)))
    (hcase : titlesTruthy a.titles = false ∨ a.surround_rows = [])
    (hok : format_table wrapFn term items a = Except.ok (lines, d)) :
    d = a.surround_rows := by
  by_cases hnil : assembleRows a.titles items = []
  · rw [format_table_rows_nil wrapFn term items a hnil] at hok
    simp only [Except.ok.injEq, Prod.mk.injEq] at hok
    exact hok.2.symm
  · cases hcl : computeLayout term a.column_spacing a.end_spacing a.wrap_columns
        (assembleRows a.titles items) with
    | error e =>
        rw [format_table_error_cl wrapFn term items a e hnil hcl] at hok
        simp at hok
    | ok q =>
        obtain ⟨m, W, wset, wspace⟩ := q
        cases hck : checkMinWidthsE W a.require_min_widths with
        | error e =>
            rw [format_table_error_ck wrapFn term items a e m W wset wspace
              hnil hcl hck] at hok
            simp at hok
        | ok u =>
            cases u
            by_cases hT : titlesTruthy a.titles = true
            · have hsur : a.surround_rows = [] := by
                rcases hcase with h | h
                · rw [hT] at h; exact absurd h (by decide)
                · exact h
              by_cases hsep : a.title_sep_char.length = 0
              · rw [format_table_titles_zerodiv wrapFn term items a m W wset wspace
                    hT hsep hcl hck] at hok
                simp at hok
              · rw [format_table_titles wrapFn term items a m W wset wspace
                    hT hsep hcl hck, if_pos hsur] at hok
                simp only [Except.ok.injEq, Prod.mk.injEq] at hok
                exact hok.2.symm
            · have hT' : titlesTruthy a.titles = false := by
                revert hT
                cases titlesTruthy a.titles <;> simp
              rw [format_table_no_titles wrapFn term items a m W wset wspace
                hT' hnil hcl hck] at hok
              simp only [Except.ok.injEq, Prod.mk.injEq] at hok
              exact hok.2.symm

/-- Claim C5, witness: a successful no-titles call leaves the caller's
    mapping unchanged. -/
theorem c5_witness :
    ([((3 : Int), ("A", "B"))] : List (Int × (String × String))) =
      [((3 : Int), ("A", "B"))] :=
  c5_amended wrapId 80 [Row.cells ["x"]]
    ⟨2, [], none, CYAN, "-", [((3 : Int), ("A", "B"))], none, 2, [], []⟩
    ["x"] [((3 : Int), ("A", "B"))] (Or.inl rfl) rfl

/-! ## Claim C3 -/

lemma pyGetI_valid (l : List Int) (i : Int) (h0 : 0 ≤ i) (hl : i < (l.length : Int)) :
    pyGetI l i = Except.ok (l.getD i.toNat 0) := by
  unfold pyGetI pyIndex
  rw [if_pos h0, if_pos hl]

lemma checkMinWidthsE_ok (W : List Int) :
    ∀ reqs : List (Int × Int), (∀ p ∈ reqs, 0 ≤ p.1 ∧ p.1 < (W.length : Int)) →
      (∀ p ∈ reqs, ¬ (W.getD p.1.toNat 0 < p.2)) →
      checkMinWidthsE W reqs = Except.ok () := by
  intro reqs
  induction reqs with
  | nil => intro _ _; rfl
  | cons p rest ih =>
      intro hvalid hno
      obtain ⟨pos, minW⟩ := p
      obtain ⟨h0, hl⟩ := hvalid (pos, minW) (List.mem_cons_self _ _)
      unfold checkMinWidthsE
      rw [pyGetI_valid W pos h0 hl]
      dsimp only
      rw [if_neg (hno (pos, minW) (List.mem_cons_self _ _))]
      exact ih (fun q hq => hvalid q (List.mem_cons_of_mem _ hq))
        (fun q hq => hno q (List.mem_cons_of_mem _ hq))

lemma checkMinWidthsE_err (W : List Int) :
    ∀ reqs : List (Int × Int), (∀ p ∈ reqs, 0 ≤ p.1 ∧ p.1 < (W.length : Int)) →
      (∃ p ∈ reqs, W.getD p.1.toNat 0 < p.2) →
      checkMinWidthsE W reqs = Except.error Err.tooNarrowColumn := by
  intro reqs
  induction reqs with
  | nil => intro _ h; simp at h
  | cons p rest ih =>
      intro hvalid hex
      obtain ⟨pos, minW⟩ := p
      obtain ⟨h0, hl⟩ := hvalid (pos, minW) (List.mem_cons_self _ _)
      unfold checkMinWidthsE
      rw [pyGetI_valid W pos h0 hl]
      dsimp only
      by_cases hv : W.getD pos.toNat 0 < minW
      · rw [if_pos hv]
      · rw [if_neg hv]
        apply ih (fun q hq => hvalid q (List.mem_cons_of_mem _ hq))
        rcases hex with ⟨q, hq, hqv⟩
        rcases List.mem_cons.mp hq with hq' | hq'
        · subst hq'
          exact absurd hqv hv
        · exact ⟨q, hq', hqv⟩

/-- Claim C3: on any input whose layout computation succeeds with final
    widths W and whose require_min_widths positions are valid column
    indices, format_table fails with TooNarrowColumn — before any output
    line is produced, an error result carries no lines — exactly when some
    (pos, min_width) pair has W[pos] < min_width; when no pair is violated
    this failure is never raised. -/
theorem c3_min_width_failure (wrapFn : String → Int → List String) (term : Int)
    (items : List Row) (a : TableArgs) (m : Nat) (W wset : List Int) (wspace : Int)
    (hcl : computeLayout term a.column_spacing a.end_spacing a.wrap_columns
        (assembleRows a.titles items) = Except.ok (m, W, wset, wspace))
    (hvalid : ∀ p ∈ a.require_min_widths, 0 ≤ p.1 ∧ p.1 < (W.length : Int)) :
    (∃ p ∈ a.require_min_widths, W.getD p.1.toNat 0 < p.2) ↔
      format_table wrapFn term items a = Except.error Err.tooNarrowColumn := by
  have hne : assembleRows a.titles items ≠ [] := by
    intro h
    rw [h] at hcl
    simp [computeLayout, maxRowLengthE, natListMax] at hcl
  constructor
  · intro hex
    exact format_table_error_ck wrapFn term items a _ m W wset wspace hne hcl
      (checkMinWidthsE_err W a.require_min_widths hvalid hex)
  · intro hft
    by_contra hno
    push_neg at hno
    have hok := checkMinWidthsE_ok W a.require_min_widths hvalid
      (fun p hp => by have := hno p hp; omega)
    by_cases hT : titlesTruthy a.titles = true
    · by_cases hsep : a.title_sep_char.length = 0
      · rw [format_table_titles_zerodiv wrapFn term items a m W wset wspace
            hT hsep hcl hok] at hft
        exact Err.noConfusion (Except.error.inj hft)
      · rw [format_table_titles wrapFn term items a m W wset wspace
            hT hsep hcl hok] at hft
        exact Except.noConfusion hft
    · have hT' : titlesTruthy a.titles = false := by
        revert hT
        cases titlesTruthy a.titles <;> simp
      rw [format_table_no_titles wrapFn term items a m W wset wspace
        hT' hne hcl hok] at hft
      exact Except.noConfusion hft

/-- Claim C3, witness: require_min_widths = {(0, 50)} with computed column
    widths [3, 2] makes format_table fail with TooNarrowColumn. -/
theorem c3_witness :
    format_table wrapId 20 [Row.cells ["abc", "de"]]
        ⟨2, [], none, CYAN, "-", [], none, 2, [((0 : Int), (50 : Int))], []⟩ =
      Except.error Err.tooNarrowColumn :=
  (c3_min_width_failure wrapId 20 [Row.cells ["abc", "de"]]
      ⟨2, [], none, CYAN, "-", [], none, 2, [((0 : Int), (50 : Int))], []⟩
      2 [3, 2] [] (-1) rfl (by decide)).mp
    ⟨((0 : Int), (50 : Int)), by decide, by decide⟩

/-! ## Claim C2 -/

lemma fdiv_nonneg' {a b : Int} (ha : 0 ≤ a) (hb : 0 ≤ b) : 0 ≤ Int.fdiv a b := by
  obtain ⟨m, rfl⟩ := Int.eq_ofNat_of_zero_le ha
  obtain ⟨n, rfl⟩ := Int.eq_ofNat_of_zero_le hb
  rw [← Int.ofNat_fdiv]
  exact Int.ofNat_nonneg _

lemma normWrap_nodup (m : Nat) (wc : List Int) : (normWrap m wc).Nodup := by
  unfold normWrap
  exact ((List.perm_insertionSort _ _).nodup_iff).mpr (List.nodup_dedup _)

lemma getD_set_self (v : Int) :
    ∀ (l : List Int) (k : Nat), k < l.length → (l.set k v).getD k 0 = v := by
  intro l
  induction l with
  | nil => intro k hk; simp at hk
  | cons a t ih =>
      intro k hk
      cases k with
      | zero => rfl
      | succ k =>
          simp only [List.set_cons_succ, List.getD_cons_succ]
          exact ih k (by simpa using hk)

lemma getD_set_ne (v : Int) :
    ∀ (l : List Int) (k j : Nat), k ≠ j → (l.set k v).getD j 0 = l.getD j 0 := by
  intro l
  induction l with
  | nil => intro k j _; rfl
  | cons a t ih =>
      intro k j hne
      cases k with
      | zero =>
          cases j with
          | zero => exact absurd rfl hne
          | succ j => rfl
      | succ k =>
          cases j with
          | zero => rfl
          | succ j =>
              simp only [List.set_cons_succ, List.getD_cons_succ]
              exact ih k j (by omega)

/-- One pass of the removal loop: it never fails on valid indices, the
    share never decreases, the wrap set only loses members (each at most
    once), and any snapshot column already narrower than the entry share is
    guaranteed to be removed. -/
lemma adjustLoopE_spec (W : List Int) :
    ∀ snap s ws, (∀ n ∈ snap, 0 ≤ n ∧ n < (W.length : Int)) →
      ∃ s' ws', adjustLoopE W snap s ws = Except.ok (s', ws') ∧
        s' ⊆ s ∧ ws ≤ ws' ∧ (s.Nodup → s'.Nodup) ∧
        (s.Nodup → ∀ n ∈ snap, W.getD n.toNat 0 < ws → n ∉ s') := by
  intro snap
  induction snap with
  | nil =>
      intro s ws _
      exact ⟨s, ws, rfl, List.Subset.refl s, le_refl ws, fun h => h,
        fun _ n hn => absurd hn (List.not_mem_nil n)⟩
  | cons n0 rest ih =>
      intro s ws hvalid
      obtain ⟨h0, hl⟩ := hvalid n0 (List.mem_cons_self _ _)
      have hrest : ∀ n ∈ rest, 0 ≤ n ∧ n < (W.length : Int) :=
        fun n hn => hvalid n (List.mem_cons_of_mem _ hn)
      unfold adjustLoopE
      rw [pyGetI_valid W n0 h0 hl]
      dsimp only
      by_cases hlt : W.getD n0.toNat 0 < ws
      · rw [if_pos hlt]
        obtain ⟨s', ws', heq, hsub, hmono, hnd, hrem⟩ :=
          ih (s.erase n0)
            (ws + Int.fdiv (ws - W.getD n0.toNat 0) ((max 1 (s.erase n0).length : Nat) : Int))
            hrest
        have hws_le : ws ≤ ws + Int.fdiv (ws - W.getD n0.toNat 0)
            ((max 1 (s.erase n0).length : Nat) : Int) := by
          have hnum : (0 : Int) ≤ ws - W.getD n0.toNat 0 := by omega
          have hden : (0 : Int) ≤ ((max 1 (s.erase n0).length : Nat) : Int) :=
            Int.ofNat_nonneg _
          have := fdiv_nonneg' hnum hden
          omega
        refine ⟨s', ws', heq, fun x hx => List.erase_subset _ _ (hsub hx),
          le_trans hws_le hmono, fun hnds => hnd (hnds.erase _), ?_⟩
        intro hnds n hn hwn
        rcases List.mem_cons.mp hn with hn' | hn'
        · subst hn'
          intro hmem
          exact (hnds.not_mem_erase) (hsub hmem)
        · exact hrem (hnds.erase n0) n hn' (lt_of_lt_of_le hwn hws_le)
      · rw [if_neg hlt]
        obtain ⟨s', ws', heq, hsub, hmono, hnd, hrem⟩ := ih s ws hrest
        refine ⟨s', ws', heq, hsub, hmono, hnd, ?_⟩
        intro hnds n hn hwn
        rcases List.mem_cons.mp hn with hn' | hn'
        · subst hn'
          exact absurd hwn hlt
        · exact hrem hnds n hn' hwn

/-- The clamp loop: it never fails on valid indices, preserves the width
    list length, writes the final share at every member of the wrap set and
    leaves every other column untouched. -/
lemma clampE_spec (v : Int) :
    ∀ (fs : List Int) (W : List Int), (∀ n ∈ fs, 0 ≤ n ∧ n < (W.length : Int)) →
      ∃ W', clampE v fs W = Except.ok W' ∧ W'.length = W.length ∧
        ∀ n : Int, 0 ≤ n → n < (W.length : Int) →
          (n ∈ fs → W'.getD n.toNat 0 = v) ∧
          (n ∉ fs → W'.getD n.toNat 0 = W.getD n.toNat 0) := by
  intro fs
  induction fs with
  | nil =>
      intro W _
      exact ⟨W, rfl, rfl, fun n _ _ =>
        ⟨fun h => absurd h (List.not_mem_nil n), fun _ => rfl⟩⟩
  | cons n0 rest ih =>
      intro W hvalid
      obtain ⟨h0, hl⟩ := hvalid n0 (List.mem_cons_self _ _)
      unfold clampE pySetI pyIndex
      rw [if_pos h0, if_pos hl]
      dsimp only
      have hlen : (W.set n0.toNat v).length = W.length := List.length_set W n0.toNat v
      obtain ⟨W', heq, hlen', hprop⟩ := ih (W.set n0.toNat v)
        (fun n hn => by
          refine ⟨(hvalid n (List.mem_cons_of_mem _ hn)).1, ?_⟩
          rw [hlen]
          exact (hvalid n (List.mem_cons_of_mem _ hn)).2)
      refine ⟨W', heq, by rw [hlen', hlen], ?_⟩
      intro n hn0 hnl
      have hnl' : n < (((W.set n0.toNat v).length : Nat) : Int) := by
        rw [hlen]; exact hnl
      constructor
      · intro hmem
        rcases List.mem_cons.mp hmem with hmem' | hmem'
        · subst hmem'
          by_cases hr : n ∈ rest
          · exact (hprop n hn0 hnl').1 hr
          · rw [(hprop n hn0 hnl').2 hr]
            exact getD_set_self v W n.toNat (by omega)
        · exact (hprop n hn0 hnl').1 hmem'
      · intro hnot
        have hne0 : n ≠ n0 := fun he => hnot (he ▸ List.mem_cons_self _ _)
        have hnr : n ∉ rest := fun hr => hnot (List.mem_cons_of_mem _ hr)
        rw [(hprop n hn0 hnl').2 hnr]
        exact getD_set_ne v W n0.toNat n.toNat (by omega)

/-- Claim C2: when total required width exceeds the terminal width and the
    normalized wrap set is non-empty (all wrap indices valid), the layout
    computation succeeds and: the final wrap set is a subset of the initial
    one with no duplicates (each column removed at most once); the final
    share never drops below the initial evenly divided share (each removal
    only increases it); every wrap-eligible column whose natural width is
    below the initial evenly divided share is removed; every column
    remaining in the wrap set gets final width equal to the final computed
    share; and every column not in the final wrap set keeps its natural
    width. -/
theorem c2_wrap_redistribution (term colSp endSp : Int) (wrapCols : List Int)
    (rows : List Row) (m : Nat)
    (hm : maxRowLengthE rows = Except.ok m)
    (hover : (maxWidths m (padRows m rows)).sum + totalSpacing m colSp endSp > term)
    (hne : normWrap m wrapCols ≠ [])
    (hvalid : ∀ n ∈ normWrap m wrapCols,
      0 ≤ n ∧ n < ((maxWidths m (padRows m rows)).length : Int)) :
    ∃ W' fs fshr,
      computeLayout term colSp endSp wrapCols rows = Except.ok (m, W', fs, fshr) ∧
      fs ⊆ normWrap m wrapCols ∧
      fs.Nodup ∧
      initialShare term colSp endSp m (maxWidths m (padRows m rows))
          (normWrap m wrapCols) ≤ fshr ∧
      (∀ n ∈ normWrap m wrapCols,
        (maxWidths m (padRows m rows)).getD n.toNat 0 <
          initialShare term colSp endSp m (maxWidths m (padRows m rows))
            (normWrap m wrapCols) →
        n ∉ fs) ∧
      W'.length = (maxWidths m (padRows m rows)).length ∧
      (∀ n ∈ fs, W'.getD n.toNat 0 = fshr) ∧
      (∀ n : Int, 0 ≤ n → n < ((maxWidths m (padRows m rows)).length : Int) →
        n ∉ fs →
        W'.getD n.toNat 0 = (maxWidths m (padRows m rows)).getD n.toNat 0) := by
  obtain ⟨fs, fshr, hadj, hsub, hmono, hnodup, hrem⟩ :=
    adjustLoopE_spec (maxWidths m (padRows m rows)) (normWrap m wrapCols)
      (normWrap m wrapCols)
      (initialShare term colSp endSp m (maxWidths m (padRows m rows))
        (normWrap m wrapCols)) hvalid
  have hnodup0 := normWrap_nodup m wrapCols
  have hfsvalid : ∀ n ∈ fs,
      0 ≤ n ∧ n < ((maxWidths m (padRows m rows)).length : Int) :=
    fun n hn => hvalid n (hsub hn)
  obtain ⟨W', hclamp, hlen, hprop⟩ :=
    clampE_spec fshr fs (maxWidths m (padRows m rows)) hfsvalid
  refine ⟨W', fs, fshr, ?_, hsub, hnodup hnodup0, hmono,
    fun n hn hlt => hrem hnodup0 n hn hlt, hlen,
    fun n hn => (hprop n (hfsvalid n hn).1 (hfsvalid n hn).2).1 hn,
    fun n h0 hl hnot => (hprop n h0 hl).2 hnot⟩
  unfold computeLayout
  rw [hm]
  dsimp only
  rw [if_pos ⟨hover, hne⟩, hadj]
  dsimp only
  rw [hclamp]

/-- Claim C2, witness: two wrappable columns of natural width 6 on a
    10-column terminal; the even share is 3, no column is narrower than it,
    both stay in the wrap set and both final widths equal the share. -/
theorem c2_witness :
    ∃ W' fs fshr,
      computeLayout 10 2 2 [0, 1] [Row.cells ["aaaaaa", "bbbbbb"]] =
        Except.ok (2, W', fs, fshr) ∧
      fs ⊆ normWrap 2 [0, 1] ∧
      fs.Nodup ∧
      initialShare 10 2 2 2 (maxWidths 2 (padRows 2 [Row.cells ["aaaaaa", "bbbbbb"]]))
          (normWrap 2 [0, 1]) ≤ fshr ∧
      (∀ n ∈ normWrap 2 [0, 1],
        (maxWidths 2 (padRows 2 [Row.cells ["aaaaaa", "bbbbbb"]])).getD n.toNat 0 <
          initialShare 10 2 2 2
            (maxWidths 2 (padRows 2 [Row.cells ["aaaaaa", "bbbbbb"]]))
            (normWrap 2 [0, 1]) →
        n ∉ fs) ∧
      W'.length = (maxWidths 2 (padRows 2 [Row.cells ["aaaaaa", "bbbbbb"]])).length ∧
      (∀ n ∈ fs, W'.getD n.toNat 0 = fshr) ∧
      (∀ n : Int, 0 ≤ n →
        n < ((maxWidths 2 (padRows 2 [Row.cells ["aaaaaa", "bbbbbb"]])).length : Int) →
        n ∉ fs →
        W'.getD n.toNat 0 =
          (maxWidths 2 (padRows 2 [Row.cells ["aaaaaa", "bbbbbb"]])).getD n.toNat 0) :=
  c2_wrap_redistribution 10 2 2 [0, 1] [Row.cells ["aaaaaa", "bbbbbb"]] 2
    rfl (by decide) (by decide) (by decide)

/-! ## Claim C8 (amended) -/

lemma list_length_le_sum : ∀ l : List Nat, (∀ x ∈ l, 1 ≤ x) → l.length ≤ l.sum := by
  intro l
  induction l with
  | nil => intro _; exact le_refl 0
  | cons x rest ih =>
      intro h
      have hx := h x (List.mem_cons_self _ _)
      have := ih (fun y hy => h y (List.mem_cons_of_mem _ hy))
      simp only [List.length_cons, List.sum_cons]
      omega

lemma foldr_max_pos : ∀ ls : List (List String), ls ≠ [] → (∀ l ∈ ls, l ≠ []) →
    1 ≤ ls.foldr (fun l acc => max l.length acc) 0 := by
  intro ls
  induction ls with
  | nil => intro h _; exact absurd rfl h
  | cons l rest _ =>
      intro _ hall
      have h1 : 1 ≤ l.length :=
        List.length_pos.mpr (hall l (List.mem_cons_self _ _))
      simp only [List.foldr_cons]
      exact le_trans h1 (le_max_left _ _)

lemma renderRow_lit_length (cf surround : List (Int × (String × String)))
    (striped : Option String) (colSp : Int) (W wset : List Int) (wspace : Int)
    (wrapFn : String → Int → List String) (rowNum : Int) (s : String) :
    (renderRow cf surround striped colSp W wset wspace wrapFn rowNum (Row.lit s)).length = 1 :=
  rfl

lemma renderRow_cells_length (cf surround : List (Int × (String × String)))
    (striped : Option String) (colSp : Int) (W wset : List Int) (wspace : Int)
    (wrapFn : String → Int → List String) (rowNum : Int) (cs : List String)
    (hcs : cs ≠ []) (hw : wspace ≤ 0 ∨ ∀ s w, wrapFn s w ≠ []) :
    1 ≤ (renderRow cf surround striped colSp W wset wspace wrapFn rowNum (Row.cells cs)).length := by
  unfold renderRow
  dsimp only
  rw [List.length_map]
  unfold zipLongest
  rw [List.length_map, List.length_range]
  apply foldr_max_pos
  · intro hmap
    apply hcs
    have hlen := congrArg List.length hmap
    simp only [List.length_map, List.enum_length, List.length_nil] at hlen
    exact List.eq_nil_of_length_eq_zero hlen
  · intro l hl
    rw [List.mem_map] at hl
    obtain ⟨p, _, hgl⟩ := hl
    subst hgl
    by_cases hcond : wspace > 0 ∧ ((p.1 : Int) ∈ wset)
    · rw [if_pos hcond]
      rcases hw with hw | hw
      · exact absurd hcond.1 (by omega)
      · exact hw p.2 wspace
    · rw [if_neg hcond]
      simp

lemma renderedLines_length (a : TableArgs) (surround : List (Int × (String × String)))
    (W wset : List Int) (wspace : Int) (wrapFn : String → Int → List String)
    (start : Int) (rows2 : List Row)
    (hrows : ∀ r ∈ rows2, ∀ cs, r = Row.cells cs → cs ≠ [])
    (hw : wspace ≤ 0 ∨ ∀ s w, wrapFn s w ≠ []) :
    rows2.length ≤ (renderedLines a surround W wset wspace wrapFn start rows2).length := by
  unfold renderedLines
  rw [List.length_flatten]
  have hlen : ((rows2.enum.map (fun p =>
      renderRow a.column_formats surround a.striped_row_bg a.column_spacing
        W wset wspace wrapFn (start + (p.1 : Int)) p.2)).map List.length).length =
      rows2.length := by
    simp [List.enum_length]
  rw [← hlen]
  apply list_length_le_sum
  intro x hx
  rw [List.mem_map] at hx
  obtain ⟨lr, hlr, hxl⟩ := hx
  rw [List.mem_map] at hlr
  obtain ⟨p, hp, hflr⟩ := hlr
  subst hflr
  subst hxl
  have hmem : p.2 ∈ rows2 := List.snd_mem_of_mem_enumFrom hp
  cases hrow : p.2 with
  | lit s =>
      exact le_of_eq (renderRow_lit_length a.column_formats surround a.striped_row_bg
        a.column_spacing W wset wspace wrapFn (start + (p.1 : Int)) s).symm
  | cells cs =>
      exact renderRow_cells_length _ _ _ _ _ _ _ _ _ cs (hrows p.2 hmem cs hrow) hw

lemma padRows_length (m : Nat) (rows : List Row) :
    (padRows m rows).length = rows.length := List.length_map _ _

lemma padRows_cells_ne_nil (m : Nat) (hm1 : 1 ≤ m) (rows : List Row) :
    ∀ r ∈ padRows m rows, ∀ cs, r = Row.cells cs → cs ≠ [] := by
  intro r hr cs hcs
  unfold padRows at hr
  rw [List.mem_map] at hr
  obtain ⟨r0, _, hmap⟩ := hr
  cases r0 with
  | lit s =>
      rw [← hmap] at hcs
      exact absurd hcs (by simp)
  | cells cs0 =>
      rw [← hmap] at hcs
      have hceq : cs0 ++ List.replicate (m - cs0.length) "" = cs := by
        injection hcs
      apply List.ne_nil_of_length_pos
      rw [← hceq, List.length_append, List.length_replicate]
      omega

lemma assembleRows_length (titles : Option (List String)) (items : List Row) :
    (assembleRows titles items).length =
      items.length + (if titlesTruthy titles then 1 else 0) := by
  unfold assembleRows
  cases titlesTruthy titles <;> simp

lemma computeLayout_fst (term colSp endSp : Int) (wrapCols : List Int)
    (rows : List Row) (m m2 : Nat) (W wset : List Int) (wspace : Int)
    (hm : maxRowLengthE rows = Except.ok m)
    (hcl : computeLayout term colSp endSp wrapCols rows = Except.ok (m2, W, wset, wspace)) :
    m2 = m := by
  unfold computeLayout at hcl
  rw [hm] at hcl
  dsimp only at hcl
  split at hcl
  · split at hcl
    · exact absurd hcl (by simp)
    · split at hcl
      · exact absurd hcl (by simp)
      · simp only [Except.ok.injEq, Prod.mk.injEq] at hcl
        exact hcl.1.symm
  · simp only [Except.ok.injEq, Prod.mk.injEq] at hcl
    exact hcl.1.symm

lemma computeLayout_no_wrap (term colSp endSp : Int) (wrapCols : List Int)
    (rows : List Row) (m : Nat)
    (hm : maxRowLengthE rows = Except.ok m)
    (hcond : ¬ ((maxWidths m (padRows m rows)).sum + totalSpacing m colSp endSp > term ∧
      normWrap m wrapCols ≠ [])) :
    computeLayout term colSp endSp wrapCols rows =
      Except.ok (m, maxWidths m (padRows m rows), normWrap m wrapCols, -1) := by
  unfold computeLayout
  rw [hm]
  dsimp only
  rw [if_neg hcond]

/-- Claim C8 (amended): for every accepted input whose padded column count
    is at least 1, provided the wrap collaborator returns at least one line
    per cell or the wrap branch is not taken at all (the table fits or the
    wrap set is empty), the number of emitted physical lines is at least
    the number of logical rows (title row included); without the
    column-count proviso a structured row with zero cells yields zero
    physical lines. -/
theorem c8_amended (wrapFn : String → Int → List String) (term : Int)
    (items : List Row) (a : TableArgs) (lines : List String)
    (d : List (Int × (String × String))) (m : Nat)
    (hm : maxRowLengthE (assembleRows a.titles items) = Except.ok m)
    (hm1 : 1 ≤ m)
    (hbranch : (∀ s w, wrapFn s w ≠ []) ∨
      ¬ ((maxWidths m (padRows m (assembleRows a.titles items))).sum +
            totalSpacing m a.column_spacing a.end_spacing > term ∧
          normWrap m a.wrap_columns ≠ []))
    (hok : format_table wrapFn term items a = Except.ok (lines, d)) :
    items.length + (if titlesTruthy a.titles then 1 else 0) ≤ lines.length := by
  have hne : assembleRows a.titles items ≠ [] := by
    intro h
    rw [h] at hm
    simp [maxRowLengthE, natListMax] at hm
  -- obtain the layout result and the render-nonemptiness side condition
  obtain ⟨W, wset, wspace, hcl, hw⟩ :
      ∃ W wset wspace,
        computeLayout term a.column_spacing a.end_spacing a.wrap_columns
            (assembleRows a.titles items) = Except.ok (m, W, wset, wspace) ∧
        (wspace ≤ 0 ∨ ∀ s w, wrapFn s w ≠ []) := by
    rcases hbranch with hwf | hcond
    · cases hcl : computeLayout term a.column_spacing a.end_spacing a.wrap_columns
          (assembleRows a.titles items) with
      | error e =>
          rw [format_table_error_cl wrapFn term items a e hne hcl] at hok
          simp at hok
      | ok q =>
          obtain ⟨m2, W, wset, wspace⟩ := q
          have hm2 := computeLayout_fst term a.column_spacing a.end_spacing
            a.wrap_columns (assembleRows a.titles items) m m2 W wset wspace hm hcl
          subst hm2
          exact ⟨W, wset, wspace, rfl, Or.inr hwf⟩
    · exact ⟨maxWidths m (padRows m (assembleRows a.titles items)),
        normWrap m a.wrap_columns, -1,
        computeLayout_no_wrap term a.column_spacing a.end_spacing a.wrap_columns
          (assembleRows a.titles items) m hm hcond,
        Or.inl (by omega)⟩
  cases hck : checkMinWidthsE W a.require_min_widths with
  | error e =>
      rw [format_table_error_ck wrapFn term items a e m W wset wspace hne hcl hck] at hok
      simp at hok
  | ok u =>
      cases u
      have hpadne := padRows_cells_ne_nil m hm1 (assembleRows a.titles items)
      have hpadlen := padRows_length m (assembleRows a.titles items)
      have hrows0len := assembleRows_length a.titles items
      by_cases hT : titlesTruthy a.titles = true
      · by_cases hsep : a.title_sep_char.length = 0
        · rw [format_table_titles_zerodiv wrapFn term items a m W wset wspace
              hT hsep hcl hck] at hok
          simp at hok
        · rw [format_table_titles wrapFn term items a m W wset wspace
              hT hsep hcl hck] at hok
          simp only [Except.ok.injEq, Prod.mk.injEq] at hok
          obtain ⟨hlines, -⟩ := hok
          have h1le : 1 ≤ (padRows m (assembleRows a.titles items)).length := by
            rw [hpadlen, hrows0len, hT]
            simp
          have hrows2 : ∀ r ∈ (padRows m (assembleRows a.titles items)).insertIdx 1
              (Row.lit (sepLine a.title_sep_char
                (W.sum + totalSpacing m a.column_spacing a.end_spacing))),
              ∀ cs, r = Row.cells cs → cs ≠ [] := by
            intro r hr cs hcs
            rcases (List.mem_insertIdx h1le).mp hr with hr' | hr'
            · rw [hr'] at hcs
              exact absurd hcs (by simp)
            · exact hpadne r hr' cs hcs
          have hbound := renderedLines_length a (titledSurround a) W wset wspace
            wrapFn (-2)
            ((padRows m (assembleRows a.titles items)).insertIdx 1
              (Row.lit (sepLine a.title_sep_char
                (W.sum + totalSpacing m a.column_spacing a.end_spacing))))
            hrows2 hw
          rw [hlines] at hbound
          rw [List.length_insertIdx 1 _ h1le, hpadlen, hrows0len, hT] at hbound
          rw [hT]
          simp only [if_true] at hbound
          simp only [if_true]
          omega
      · have hT' : titlesTruthy a.titles = false := by
          revert hT
          cases titlesTruthy a.titles <;> simp
        rw [format_table_no_titles wrapFn term items a m W wset wspace
          hT' hne hcl hck] at hok
        simp only [Except.ok.injEq, Prod.mk.injEq] at hok
        obtain ⟨hlines, -⟩ := hok
        have hbound := renderedLines_length a a.surround_rows W wset wspace
          wrapFn 0 (padRows m (assembleRows a.titles items)) hpadne hw
        rw [hlines] at hbound
        rw [hpadlen, hrows0len, hT'] at hbound
        rw [hT']
        simp only [Bool.false_eq_true, if_false] at hbound
        simp only [Bool.false_eq_true, if_false]
        omega

/-- Claim C8, witness: two rows, two columns, no wrapping: 2 logical rows
    produce exactly 2 physical lines. -/
theorem c8_witness :
    ([Row.cells ["a", "bb"], Row.cells ["ccc", "d"]] : List Row).length +
        (if titlesTruthy (none : Option (List String)) then 1 else 0) ≤
      (["a    bb", "ccc  d"] : List String).length :=
  c8_amended wrapId 80 [Row.cells ["a", "bb"], Row.cells ["ccc", "d"]]
    ⟨2, [], none, CYAN, "-", [], none, 0, [], []⟩
    ["a    bb", "ccc  d"] [] 2 rfl (by decide) (Or.inr (by decide)) rfl

end Libwui
